import Mathlib

/-!
Verification of the reminder bot's scheduling and recovery engine
(src/main.go of wendao2000/reminder).

The embedding is a shallow state-passing model of the program's shared
state: the sqlite `reminders` table, the `reminders` map of one-shot
timers, the cron scheduler's entry table (`cronEntries` plus the
scheduler's own live entry set), and the `pausedEntries` /
`snoozedEntries` side tables.  Instants and durations are integers
(Unix seconds).  Time parsing of command arguments and the Discord
transport are platform glue outside the modelled core; handlers are
modelled from the point where the due instant / cron expression has
been computed.  The cron expression parser (robfig/cron, an external
dependency) is passed in as a function `CronParse`; the sqlite INSERT
can fail, which is modelled by the `insertOk` flag threaded to
`saveReminder` (mirroring `db.Exec` returning an error).
-/

/-- Error outcomes surfaced to the requester by the command handlers. -/
inductive Err where
  | inThePast
  | invalidExpr
  | storeFailure
  | notFound
  | notOwner
  | notPaused
  | snoozeExpired
deriving DecidableEq, Repr

/-- A row of the `reminders` table / the `Reminder` struct (src/main.go
lines 25-32).  `dueTime` models the nullable `due_time` column (stored as
RFC3339 text; round-tripping is exact, so it is kept as the instant
itself), `cronExpr` the nullable `cron_expr` column (`sql.NullString`
with `Valid = false` is `none`). -/
structure Row where
  id : Nat
  channelID : String
  userID : String
  message : String
  dueTime : Option Int
  cronExpr : Option String
deriving DecidableEq, Repr

/-- A `time.Timer` object created by `time.AfterFunc` in
`scheduleReminder`.  The object stays alive (and will run its callback at
`due`) until it fires or `Stop()` is called; `stopped` records a
successful `Stop()`.  Timers are kept in creation order so that the
`reminders` map can reference them by index. -/
structure TimerObj where
  rid : Nat
  due : Int
  stopped : Bool
deriving DecidableEq, Repr

/-- The program's shared mutable state (globals of src/main.go lines
59-66 plus the sqlite table).
`rows`/`nextId`: the `reminders` table with its AUTOINCREMENT counter.
`timers`: every `time.Timer` object ever created by `scheduleReminder`.
`remindersMap`: the `reminders` map, reminder id to index into `timers`.
`cronEntries`: the `cronEntries` sync.Map, reminder id to cron EntryID.
`cronSchedEntries`: the EntryIDs currently registered inside the cron
scheduler itself; `cronNextEntryID` is the scheduler's EntryID counter.
`pausedEntries` / `snoozedEntries`: the two side tables.
`sent`: log of reminder deliveries (channel, message) performed by fire
callbacks. -/
structure BotState where
  rows : List Row
  nextId : Nat
  timers : List TimerObj
  remindersMap : List (Nat × Nat)
  cronEntries : List (Nat × Nat)
  cronSchedEntries : List Nat
  cronNextEntryID : Nat
  pausedEntries : List (Nat × Bool)
  snoozedEntries : List (Nat × Row)
  sent : List (String × String)
deriving DecidableEq, Repr

/-- Result of parsing a cron expression: `none` on a parse error,
otherwise the compiled schedule's `Next` function (next fire instant
strictly after a given instant).  Models `parser.Parse`. -/
abbrev CronParse := String → Option (Int → Int)

/-- Lookup in an association list (the `sync.Map.Load` / Go map read). -/
def lookupA {α : Type} : List (Nat × α) → Nat → Option α
  | [], _ => none
  | (k, v) :: l, i => if k = i then some v else lookupA l i

/-- Remove a key from an association list (`sync.Map.Delete` / `delete`). -/
def eraseA {α : Type} : List (Nat × α) → Nat → List (Nat × α)
  | [], _ => []
  | (k, v) :: l, i => if k = i then eraseA l i else (k, v) :: eraseA l i

/-- Store a key in an association list (`sync.Map.Store` / map write):
replaces any previous binding for the key. -/
def insertA {α : Type} (l : List (Nat × α)) (i : Nat) (v : α) : List (Nat × α) :=
  (i, v) :: eraseA l i

/-- Positional lookup in a list (used to dereference `remindersMap`
indices into `timers`). -/
def nth {α : Type} : List α → Nat → Option α
  | [], _ => none
  | a :: _, 0 => some a
  | _ :: l, n + 1 => nth l n

/-- Mark the timer object at a position as stopped (`timer.Stop()`). -/
def setStopped : List TimerObj → Nat → List TimerObj
  | [], _ => []
  | t :: l, 0 => { t with stopped := true } :: l
  | t :: l, n + 1 => t :: setStopped l n

/-- Delete all rows with the given id (`DELETE FROM reminders WHERE id = ?`). -/
def removeRows : List Row → Nat → List Row
  | [], _ => []
  | r :: l, i => if r.id = i then removeRows l i else r :: removeRows l i

/-- Whether some row has the given id. -/
def idInList : List Row → Nat → Bool
  | [], _ => false
  | r :: l, i => if r.id = i then true else idInList l i

/-- First row with the given id (`SELECT ... WHERE id = ?`). -/
def findRow : List Row → Nat → Option Row
  | [], _ => none
  | r :: l, i => if r.id = i then some r else findRow l i

/-- Remove an EntryID from the cron scheduler (`cronScheduler.Remove`). -/
def removeEntry : List Nat → Nat → List Nat
  | [], _ => []
  | x :: l, e => if x = e then removeEntry l e else x :: removeEntry l e

/-- Membership of an EntryID in the cron scheduler's live entry set. -/
def containsEntry : List Nat → Nat → Bool
  | [], _ => false
  | x :: l, e => if x = e then true else containsEntry l e

/-- Go's `r.CronExpr.Valid && r.CronExpr.String != ""`: the record is a
recurring reminder. -/
def isRecurring (r : Row) : Bool :=
  match r.cronExpr with
  | some s => !(s == "")
  | none => false

/-- `saveReminder` (src/main.go lines 504-526): INSERT the row, storing
either `cron_expr` or `due_time` depending on the variant, and return
the fresh AUTOINCREMENT id.  `insertOk = false` models `db.Exec`
failing, in which case nothing is persisted and an error is returned. -/
def saveReminder (st : BotState) (r : Row) (insertOk : Bool) : Option (Nat × BotState) :=
  if insertOk then
    let nid := st.nextId
    let stored : Row :=
      if isRecurring r then { r with id := nid, dueTime := none }
      else { r with id := nid, cronExpr := none }
    some (nid, { st with rows := st.rows ++ [stored], nextId := nid + 1 })
  else
    none

/-- `scheduleReminder` (src/main.go lines 403-433): create a fresh
`time.AfterFunc` timer due at `r.DueTime` and write it into the
`reminders` map at `id`.  Note the map write overwrites any previous
binding but no `Stop()` is issued on a previously armed timer. -/
def scheduleReminder (st : BotState) (id : Nat) (r : Row) : BotState :=
  let timer : TimerObj := { rid := id, due := r.dueTime.getD 0, stopped := false }
  { st with timers := st.timers ++ [timer],
            remindersMap := insertA st.remindersMap id st.timers.length }

/-- `scheduleRecurringReminder` (src/main.go lines 435-468): parse the
stored cron expression; on a parse error log and return without
registering anything; otherwise register the job with the cron
scheduler and record the EntryID in `cronEntries`. -/
def scheduleRecurringReminder (st : BotState) (parse : CronParse) (id : Nat) (r : Row) :
    BotState :=
  match parse (r.cronExpr.getD "") with
  | none => st
  | some _ =>
    { st with cronSchedEntries := st.cronSchedEntries ++ [st.cronNextEntryID],
              cronEntries := insertA st.cronEntries id st.cronNextEntryID,
              cronNextEntryID := st.cronNextEntryID + 1 }

/-- The body of the recurring FuncJob callback (src/main.go lines
442-465): consult `pausedEntries`; if the id is marked paused return
without delivering, otherwise deliver.  Returns whether a delivery
happens; the callback never modifies any scheduling state. -/
def recurringFireDelivers (pausedEntries : List (Nat × Bool)) (id : Nat) : Bool :=
  match lookupA pausedEntries id with
  | some true => false
  | _ => true

/-- The `if timer, exists := reminders[id]` block of `deleteReminder`
(src/main.go lines 559-562): stop the mapped timer and drop the map
entry. -/
def stopTimerFor (st : BotState) (id : Nat) : BotState :=
  match lookupA st.remindersMap id with
  | some idx =>
    { st with timers := setStopped st.timers idx,
              remindersMap := eraseA st.remindersMap id }
  | none => st

/-- The `if entryIDInterface, ok := cronEntries.Load(id)` block of
`deleteReminder` (src/main.go lines 564-570): remove the entry from the
cron scheduler and drop the `cronEntries` binding. -/
def removeCronFor (st : BotState) (id : Nat) : BotState :=
  match lookupA st.cronEntries id with
  | some e =>
    { st with cronSchedEntries := removeEntry st.cronSchedEntries e,
              cronEntries := eraseA st.cronEntries id }
  | none => st

/-- `deleteReminder` (src/main.go lines 553-575): delete the table row,
stop and drop any armed timer, remove any cron registration, clear any
pause flag.  (The sqlite DELETE itself is modelled as succeeding; only
INSERT failure is exercised by the spec's claims.) -/
def deleteReminder (st : BotState) (id : Nat) : BotState :=
  let st1 := { st with rows := removeRows st.rows id }
  let st2 := stopTimerFor st1 id
  let st3 := removeCronFor st2 id
  { st3 with pausedEntries := eraseA st3.pausedEntries id }

/-- The body of the one-shot timer callback (src/main.go lines 405-431):
deliver the reminder message, store a snooze hold for the fired id
(the 5-minute expiry timer is represented by the hold later being
absent), and delete the fired record. -/
def oneShotFire (st : BotState) (id : Nat) (r : Row) : BotState :=
  let st1 := { st with sent := st.sent ++ [(r.channelID, r.message)],
                       snoozedEntries := insertA st.snoozedEntries id r }
  deleteReminder st1 id

/-- `pauseRecurringReminder` (src/main.go lines 528-530). -/
def pauseRecurringReminder (st : BotState) (id : Nat) : BotState :=
  { st with pausedEntries := insertA st.pausedEntries id true }

/-- `resumeRecurringReminder` (src/main.go lines 532-534). -/
def resumeRecurringReminder (st : BotState) (id : Nat) : BotState :=
  { st with pausedEntries := eraseA st.pausedEntries id }

/-- `getReminderUserID` (src/main.go lines 536-543): `none` models
`sql.ErrNoRows`. -/
def getReminderUserID (st : BotState) (id : Nat) : Option String :=
  (findRow st.rows id).map Row.userID

/-- `isReminderOwner` (src/main.go lines 545-551). -/
def isReminderOwner (st : BotState) (id : Nat) (userID : String) : Option Bool :=
  (getReminderUserID st id).map (fun owner => owner == userID)

/-- Core of `handleRemindCommand` (src/main.go lines 193-231), from the
point where the due instant has been computed from the command text
(duration/absolute-time parsing, lines 170-207, is platform glue).
`now` is the `time.Now()` captured at line 193.  Rejects when the due
instant is strictly before `now` (`dueTime.Before(now)`); otherwise
persists and then arms. -/
def handleRemindCommand (st : BotState) (now due : Int)
    (channelID userID message : String) (insertOk : Bool) : BotState × Except Err Nat :=
  if due < now then
    (st, .error .inThePast)
  else
    let reminder : Row :=
      { id := 0, channelID := channelID, userID := userID,
        message := message, dueTime := some due, cronExpr := none }
    match saveReminder st reminder insertOk with
    | none => (st, .error .storeFailure)
    | some (id, st1) => (scheduleReminder st1 id reminder, .ok id)

/-- Core of `handleRecurringCommand` (src/main.go lines 296-334):
validate the cron expression with the parser; on failure reject before
persisting anything; otherwise persist and register with the cron
scheduler. -/
def handleRecurringCommand (st : BotState) (parse : CronParse)
    (cronExpr channelID userID message : String) (insertOk : Bool) :
    BotState × Except Err Nat :=
  match parse cronExpr with
  | none => (st, .error .invalidExpr)
  | some _ =>
    let reminder : Row :=
      { id := 0, channelID := channelID, userID := userID,
        message := message, dueTime := none, cronExpr := some cronExpr }
    match saveReminder st reminder insertOk with
    | none => (st, .error .storeFailure)
    | some (id, st1) => (scheduleRecurringReminder st1 parse id reminder, .ok id)

/-- Core of `handleDeleteCommand` (src/main.go lines 577-611):
ownership check (`sql.ErrNoRows` reported as not-found), then
`deleteReminder`. -/
def handleDeleteCommand (st : BotState) (id : Nat) (requester : String) :
    BotState × Except Err Nat :=
  match isReminderOwner st id requester with
  | none => (st, .error .notFound)
  | some false => (st, .error .notOwner)
  | some true => (deleteReminder st id, .ok id)

/-- Core of `handleResumeCommand` (src/main.go lines 613-647):
ownership check, then fail unless `pausedEntries` holds `true` for the
id, else clear the flag. -/
def handleResumeCommand (st : BotState) (id : Nat) (requester : String) :
    BotState × Except Err Nat :=
  match isReminderOwner st id requester with
  | none => (st, .error .notFound)
  | some false => (st, .error .notOwner)
  | some true =>
    match lookupA st.pausedEntries id with
    | some true => (resumeRecurringReminder st id, .ok id)
    | _ => (st, .error .notPaused)

/-- Core of `handlePauseRecurringInteraction` (src/main.go lines
803-835): ownership check (a missing row surfaces as a generic failure,
modelled as not-found), then unconditionally set the pause flag.  The
handler inspects neither the record's variant nor the current pause
state. -/
def handlePauseRecurringInteraction (st : BotState) (id : Nat) (requester : String) :
    BotState × Except Err Nat :=
  match isReminderOwner st id requester with
  | none => (st, .error .notFound)
  | some false => (st, .error .notOwner)
  | some true => (pauseRecurringReminder st id, .ok id)

/-- The held reminder with its due instant replaced by now plus the
chosen delay (src/main.go line 889): `r.DueTime = time.Now().Add(dur)`
where `dur, _ := time.ParseDuration(value)` keeps the zero duration
when parsing fails, embedded as `Option.getD _ 0`. -/
def snoozedNewRow (now : Int) (value : String) (pd : String → Option Int) (r : Row) : Row :=
  { r with dueTime := some (now + (pd value).getD 0) }

/-- The row that `saveReminder` persists for a (one-shot) snoozed
reminder: fresh id, updated due instant, no cron expression. -/
def snoozedStoredRow (st : BotState) (now : Int) (value : String)
    (pd : String → Option Int) (r : Row) : Row :=
  { snoozedNewRow now value pd r with id := st.nextId, cronExpr := none }

/-- The re-save part of `handleSnoozeInteraction` (src/main.go lines
887-896): build the new one-shot from the held record, persist it,
arm it on success, and discard the hold — the hold is discarded
(`snoozedEntries.Delete`) whether or not the INSERT succeeded. -/
def snoozeResave (st : BotState) (now : Int) (id : Nat) (value : String)
    (pd : String → Option Int) (insertOk : Bool) (r : Row) : BotState × Except Err Nat :=
  let r1 := snoozedNewRow now value pd r
  match saveReminder st r1 insertOk with
  | none =>
    ({ st with snoozedEntries := eraseA st.snoozedEntries id }, .error .storeFailure)
  | some (newid, st1) =>
    let st2 := scheduleReminder st1 newid r1
    ({ st2 with snoozedEntries := eraseA st2.snoozedEntries id }, .ok newid)

/-- Core of `handleSnoozeInteraction` (src/main.go lines 863-915).
`msgAge` is `time.Since(i.Message.Timestamp)` in seconds; `requester`
is the interacting user's id, available from the interaction but never
read by the handler.  Fails when the fired message is older than the
5-minute window or when no hold is present. -/
def handleSnoozeInteraction (st : BotState) (now : Int) (id : Nat) (value : String)
    (requester : String) (msgAge : Int) (pd : String → Option Int) (insertOk : Bool) :
    BotState × Except Err Nat :=
  if 300 < msgAge then
    (st, .error .snoozeExpired)
  else
    match lookupA st.snoozedEntries id with
    | none => (st, .error .snoozeExpired)
    | some r => snoozeResave st now id value pd insertOk r

/-- One iteration of the recovery loop of `scheduleAllReminders`
(src/main.go lines 478-501): recurring rows are re-registered
regardless of the time, one-shot rows are re-armed when still in the
future and deleted otherwise, rows with neither column are skipped. -/
def recoverRow (parse : CronParse) (now : Int) (st : BotState) (r : Row) : BotState :=
  if isRecurring r then
    scheduleRecurringReminder st parse r.id r
  else
    match r.dueTime with
    | some due => if now < due then scheduleReminder st r.id r else deleteReminder st r.id
    | none => st

/-- `scheduleAllReminders` (src/main.go lines 470-502): run once at
startup over a snapshot of all persisted rows. -/
def scheduleAllReminders (st : BotState) (now : Int) (parse : CronParse) : BotState :=
  st.rows.foldl (recoverRow parse now) st

/-- The k-th fire instant of a compiled schedule, starting from `t0`:
the cron scheduler's driver fires an entry at `next` of its previous
fire instant (robfig/cron run loop, external dependency; spec section
4.4 treats it as a black box with exactly this contract). -/
def cronOcc (next : Int → Int) (t0 : Int) : Nat → Int
  | 0 => t0
  | k + 1 => next (cronOcc next t0 k)

/-- Trace of a recurring entry over its first `n` due instants: at the
k-th due instant the driver runs the FuncJob installed by
`scheduleRecurringReminder`, which consults the `pausedEntries` table
as of that tick (`pausedAt k`) and delivers only when the id is not
marked paused.  Each element is (fire instant, delivered?). -/
def cronDeliveries (next : Int → Int) (pausedAt : Nat → List (Nat × Bool)) (id : Nat)
    (t0 : Int) : Nat → List (Int × Bool)
  | 0 => []
  | n + 1 =>
    cronDeliveries next pausedAt id t0 n
      ++ [(cronOcc next t0 (n + 1), recurringFireDelivers (pausedAt n) id)]

/-- The timer currently armed for an id: the `reminders` map entry
dereferenced into the timer table. -/
def armedTimer (st : BotState) (id : Nat) : Option TimerObj :=
  (lookupA st.remindersMap id).bind (nth st.timers)

/-- Whether the armed timer for an id (if any) is live and already due,
i.e. `time.AfterFunc` fires it immediately. -/
def firesImmediately (st : BotState) (id : Nat) (now : Int) : Bool :=
  match armedTimer st id with
  | some t => !t.stopped && decide (t.due ≤ now)
  | none => false

/-- Per-record postcondition of the recovery pass (spec section 4.6):
a recurring record (whose persisted expression compiles) is registered
with the cron scheduler; a one-shot record still strictly in the future
is re-armed with a live timer at its due instant; a one-shot record
already at-or-before `now` is deleted from the store and left unarmed. -/
def rowRecovered (parse : CronParse) (now : Int) (st : BotState) (r : Row) : Prop :=
  (isRecurring r = true → (parse (r.cronExpr.getD "")).isSome = true →
    (lookupA st.cronEntries r.id).isSome = true)
  ∧ (isRecurring r = false → r.dueTime.isSome = true → now < r.dueTime.getD 0 →
    armedTimer st r.id = some { rid := r.id, due := r.dueTime.getD 0, stopped := false })
  ∧ (isRecurring r = false → r.dueTime.isSome = true → r.dueTime.getD 0 ≤ now →
    lookupA st.remindersMap r.id = none ∧ idInList st.rows r.id = false)

/-- Freshly started process: empty table (AUTOINCREMENT at 1) and empty
scheduling state. -/
def emptyState : BotState :=
  { rows := [], nextId := 1, timers := [], remindersMap := [], cronEntries := [],
    cronSchedEntries := [], cronNextEntryID := 0, pausedEntries := [],
    snoozedEntries := [], sent := [] }

/-- Concrete one-shot reminder value used by concrete runs. -/
def rowOneShotA : Row :=
  { id := 0, channelID := "chan", userID := "alice", message := "tea",
    dueTime := some 100, cronExpr := none }

/-- A second one-shot reminder value with a later due instant. -/
def rowOneShotB : Row :=
  { id := 0, channelID := "chan", userID := "alice", message := "tea",
    dueTime := some 200, cronExpr := none }

/-- Concrete recurring row as persisted (id 1). -/
def rowCron : Row :=
  { id := 1, channelID := "c1", userID := "u1", message := "standup",
    dueTime := none, cronExpr := some "0 * * * * *" }

/-- Concrete one-shot row still in the future at recovery time 10. -/
def rowFuture : Row :=
  { id := 2, channelID := "c2", userID := "u2", message := "later",
    dueTime := some 20, cronExpr := none }

/-- Concrete one-shot row already overdue at recovery time 10. -/
def rowPast : Row :=
  { id := 3, channelID := "c3", userID := "u3", message := "missed",
    dueTime := some 5, cronExpr := none }

/-- Persisted snapshot at startup: one recurring row, one future
one-shot, one overdue one-shot; in-memory scheduling state is empty. -/
def recoveryState : BotState :=
  { emptyState with rows := [rowCron, rowFuture, rowPast], nextId := 4 }

/-- Concrete cron parser: rejects the empty expression and compiles
everything else to a once-a-minute schedule. -/
def parseW : CronParse :=
  fun s => if s = "" then none else some (fun t => t + 60)

/-- State in which the one-shot with id 1 has been armed once. -/
def armedOnce : BotState := scheduleReminder emptyState 1 rowOneShotA

/-- State holding a one-shot row (id 1, owner alice) that is marked
paused: used to exercise the pause and resume handlers. -/
def pausedOneShotState : BotState :=
  { emptyState with rows := [{ rowOneShotA with id := 1 }],
                    pausedEntries := [(1, true)] }

/-- Same row but with no pause flag set. -/
def unpausedOneShotState : BotState :=
  { emptyState with rows := [{ rowOneShotA with id := 1 }] }

/-- Fully populated state for the cancel claim: row id 1 owned by
alice, an armed timer for it, a live cron registration (EntryID 7) and
a pause flag. -/
def fullState : BotState :=
  { emptyState with
      rows := [{ rowOneShotA with id := 1 }],
      timers := [{ rid := 1, due := 50, stopped := false }],
      remindersMap := [(1, 0)],
      cronEntries := [(1, 7)],
      cronSchedEntries := [7],
      pausedEntries := [(1, true)] }

/-- State right after the one-shot with id 1 fired: its snooze hold is
present, the row is gone. -/
def holdState : BotState :=
  { emptyState with nextId := 2, snoozedEntries := [(1, rowOneShotA)] }

/-- Duration parser used in concrete snooze runs: only the menu value
"5m" parses (to 300 seconds). -/
def pdW : String → Option Int :=
  fun s => if s = "5m" then some 300 else none

/-- Paused-table history used in the concrete recurring run: the id is
paused during the first tick and unpaused afterwards. -/
def pausedAtW : Nat → List (Nat × Bool) :=
  fun k => if k = 0 then [(1, true)] else []

/-- Concrete compiled schedule used in the recurring run. -/
def nextW : Int → Int := fun t => t + 60

/-- The one-shot `Reminder` value built by `handleRemindCommand` (with
`id` not yet assigned) and the row it is stored as. -/
def mkOneShotRow (nid : Nat) (ch u msg : String) (due : Int) : Row :=
  { id := nid, channelID := ch, userID := u, message := msg,
    dueTime := some due, cronExpr := none }


theorem lookupA_eraseA_self {α : Type} (l : List (Nat × α)) (i : Nat) :
    lookupA (eraseA l i) i = none := by
  induction l with
  | nil => rfl
  | cons p l ih =>
    obtain ⟨k, v⟩ := p
    by_cases h : k = i <;> simp [eraseA, lookupA, h, ih]

theorem lookupA_eraseA_ne {α : Type} (l : List (Nat × α)) (i j : Nat) (h : j ≠ i) :
    lookupA (eraseA l i) j = lookupA l j := by
  induction l with
  | nil => rfl
  | cons p l ih =>
    obtain ⟨k, v⟩ := p
    by_cases hk : k = i
    · subst hk
      have hkj : ¬ k = j := fun hh => h hh.symm
      simp [eraseA, lookupA, hkj, ih]
    · by_cases hj : k = j <;> simp [eraseA, lookupA, hk, hj, ih, h]

theorem lookupA_insertA_self {α : Type} (l : List (Nat × α)) (i : Nat) (v : α) :
    lookupA (insertA l i v) i = some v := by
  simp [insertA, lookupA]

theorem lookupA_insertA_ne {α : Type} (l : List (Nat × α)) (i j : Nat) (v : α) (h : j ≠ i) :
    lookupA (insertA l i v) j = lookupA l j := by
  have hij : ¬ i = j := fun hh => h hh.symm
  simp [insertA, lookupA, hij, lookupA_eraseA_ne l i j h]

theorem nth_append_some {α : Type} (l l2 : List α) (i : Nat) (a : α)
    (h : nth l i = some a) : nth (l ++ l2) i = some a := by
  induction l generalizing i with
  | nil => simp [nth] at h
  | cons b l ih =>
    cases i with
    | zero => simpa [nth] using h
    | succ n =>
      simp only [List.cons_append, nth]
      exact ih n h

theorem nth_append_length {α : Type} (l : List α) (a : α) :
    nth (l ++ [a]) l.length = some a := by
  induction l with
  | nil => rfl
  | cons b l ih => simpa [nth] using ih

theorem nth_setStopped_self (l : List TimerObj) (i : Nat) (t : TimerObj)
    (h : nth l i = some t) :
    nth (setStopped l i) i = some { t with stopped := true } := by
  induction l generalizing i with
  | nil => simp [nth] at h
  | cons b l ih =>
    cases i with
    | zero =>
      simp only [nth] at h
      cases h
      rfl
    | succ n =>
      simp only [nth] at h
      simp only [setStopped, nth]
      exact ih n h

theorem idInList_removeRows_self (l : List Row) (i : Nat) :
    idInList (removeRows l i) i = false := by
  induction l with
  | nil => rfl
  | cons r l ih => by_cases h : r.id = i <;> simp [removeRows, idInList, h, ih]

theorem idInList_removeRows_mono (l : List Row) (i j : Nat)
    (h : idInList l j = false) : idInList (removeRows l i) j = false := by
  induction l with
  | nil => rfl
  | cons r l ih =>
    by_cases hi : r.id = i
    · simp only [idInList] at h
      by_cases hj : r.id = j
      · simp [hj] at h
      · simp [removeRows, hi, ih (by simpa [hj] using h)]
    · simp only [idInList] at h
      by_cases hj : r.id = j
      · simp [hj] at h
      · simp only [removeRows, if_neg hi, idInList, if_neg hj]
        exact ih (by simpa [hj] using h)

theorem findRow_removeRows_self (l : List Row) (i : Nat) :
    findRow (removeRows l i) i = none := by
  induction l with
  | nil => rfl
  | cons r l ih => by_cases h : r.id = i <;> simp [removeRows, findRow, h, ih]

theorem idInList_append_self (l : List Row) (q : Row) (n : Nat) (h : q.id = n) :
    idInList (l ++ [q]) n = true := by
  induction l with
  | nil => simp [idInList, h]
  | cons r l ih => by_cases hr : r.id = n <;> simp [idInList, hr, ih]

theorem findRow_append_fresh (l : List Row) (q : Row) (n : Nat)
    (hl : idInList l n = false) (hq : q.id = n) :
    findRow (l ++ [q]) n = some q := by
  induction l with
  | nil => simp [findRow, hq]
  | cons r l ih =>
    simp only [idInList] at hl
    by_cases hr : r.id = n
    · simp [hr] at hl
    · simp only [List.cons_append, findRow, if_neg hr]
      exact ih (by simpa [hr] using hl)

theorem containsEntry_removeEntry_self (l : List Nat) (e : Nat) :
    containsEntry (removeEntry l e) e = false := by
  induction l with
  | nil => rfl
  | cons x l ih => by_cases h : x = e <;> simp [removeEntry, containsEntry, h, ih]

theorem stopTimerFor_of_none (st : BotState) (i : Nat)
    (h : lookupA st.remindersMap i = none) : stopTimerFor st i = st := by
  simp [stopTimerFor, h]

theorem stopTimerFor_rows (st : BotState) (i : Nat) :
    (stopTimerFor st i).rows = st.rows := by
  unfold stopTimerFor
  cases lookupA st.remindersMap i <;> rfl

theorem stopTimerFor_cron (st : BotState) (i : Nat) :
    (stopTimerFor st i).cronEntries = st.cronEntries
      ∧ (stopTimerFor st i).cronSchedEntries = st.cronSchedEntries := by
  unfold stopTimerFor
  cases lookupA st.remindersMap i <;> exact ⟨rfl, rfl⟩

theorem stopTimerFor_sent (st : BotState) (i : Nat) :
    (stopTimerFor st i).sent = st.sent := by
  unfold stopTimerFor
  cases lookupA st.remindersMap i <;> rfl

theorem stopTimerFor_map_self (st : BotState) (i : Nat) :
    lookupA (stopTimerFor st i).remindersMap i = none := by
  unfold stopTimerFor
  cases h : lookupA st.remindersMap i with
  | none => exact h
  | some idx => exact lookupA_eraseA_self st.remindersMap i

theorem removeCronFor_fields (st : BotState) (i : Nat) :
    (removeCronFor st i).remindersMap = st.remindersMap
      ∧ (removeCronFor st i).timers = st.timers
      ∧ (removeCronFor st i).rows = st.rows
      ∧ (removeCronFor st i).sent = st.sent
      ∧ (removeCronFor st i).pausedEntries = st.pausedEntries := by
  unfold removeCronFor
  cases lookupA st.cronEntries i <;> exact ⟨rfl, rfl, rfl, rfl, rfl⟩

theorem removeCronFor_cron_self (st : BotState) (i : Nat) :
    lookupA (removeCronFor st i).cronEntries i = none := by
  unfold removeCronFor
  cases h : lookupA st.cronEntries i with
  | none => exact h
  | some e => exact lookupA_eraseA_self st.cronEntries i

theorem removeCronFor_cron_ne (st : BotState) (i j : Nat) (h : j ≠ i) :
    lookupA (removeCronFor st i).cronEntries j = lookupA st.cronEntries j := by
  unfold removeCronFor
  cases lookupA st.cronEntries i with
  | none => rfl
  | some e => exact lookupA_eraseA_ne st.cronEntries i j h

theorem stopTimerFor_map_ne (st : BotState) (i j : Nat) (h : j ≠ i) :
    lookupA (stopTimerFor st i).remindersMap j = lookupA st.remindersMap j := by
  unfold stopTimerFor
  cases lookupA st.remindersMap i with
  | none => rfl
  | some idx => exact lookupA_eraseA_ne st.remindersMap i j h

theorem deleteReminder_rows (st : BotState) (i : Nat) :
    (deleteReminder st i).rows = removeRows st.rows i := by
  unfold deleteReminder
  rw [(removeCronFor_fields _ _).2.2.1, stopTimerFor_rows]

theorem deleteReminder_map_self (st : BotState) (i : Nat) :
    lookupA (deleteReminder st i).remindersMap i = none := by
  unfold deleteReminder
  rw [(removeCronFor_fields _ _).1]
  exact stopTimerFor_map_self _ i

theorem deleteReminder_cron_self (st : BotState) (i : Nat) :
    lookupA (deleteReminder st i).cronEntries i = none := by
  unfold deleteReminder
  exact removeCronFor_cron_self _ i

theorem deleteReminder_paused_self (st : BotState) (i : Nat) :
    lookupA (deleteReminder st i).pausedEntries i = none := by
  unfold deleteReminder
  exact lookupA_eraseA_self _ i

theorem deleteReminder_sent (st : BotState) (i : Nat) :
    (deleteReminder st i).sent = st.sent := by
  unfold deleteReminder
  rw [(removeCronFor_fields _ _).2.2.2.1, stopTimerFor_sent]

theorem scheduleReminder_map (st : BotState) (id : Nat) (r : Row) :
    (scheduleReminder st id r).remindersMap
      = insertA st.remindersMap id st.timers.length := rfl

theorem scheduleReminder_timers (st : BotState) (id : Nat) (r : Row) :
    (scheduleReminder st id r).timers
      = st.timers ++ [{ rid := id, due := r.dueTime.getD 0, stopped := false }] := rfl

theorem deleteReminder_fresh_map (st : BotState) (i : Nat)
    (hm : lookupA st.remindersMap i = none) :
    (deleteReminder st i).remindersMap = st.remindersMap := by
  have h1 : stopTimerFor { st with rows := removeRows st.rows i } i
      = { st with rows := removeRows st.rows i } := stopTimerFor_of_none _ i hm
  show (removeCronFor (stopTimerFor { st with rows := removeRows st.rows i } i) i).remindersMap
      = st.remindersMap
  rw [h1, (removeCronFor_fields _ _).1]

theorem deleteReminder_fresh_timers (st : BotState) (i : Nat)
    (hm : lookupA st.remindersMap i = none) :
    (deleteReminder st i).timers = st.timers := by
  have h1 : stopTimerFor { st with rows := removeRows st.rows i } i
      = { st with rows := removeRows st.rows i } := stopTimerFor_of_none _ i hm
  show (removeCronFor (stopTimerFor { st with rows := removeRows st.rows i } i) i).timers
      = st.timers
  rw [h1, (removeCronFor_fields _ _).2.1]

theorem deleteReminder_cron_ne (st : BotState) (i j : Nat) (h : j ≠ i) :
    lookupA (deleteReminder st i).cronEntries j = lookupA st.cronEntries j := by
  show lookupA
      (removeCronFor (stopTimerFor { st with rows := removeRows st.rows i } i) i).cronEntries j
      = lookupA st.cronEntries j
  rw [removeCronFor_cron_ne _ i j h, (stopTimerFor_cron _ _).1]

theorem deleteReminder_map_ne (st : BotState) (i j : Nat) (h : j ≠ i) :
    lookupA (deleteReminder st i).remindersMap j = lookupA st.remindersMap j := by
  show lookupA
      (removeCronFor (stopTimerFor { st with rows := removeRows st.rows i } i) i).remindersMap j
      = lookupA st.remindersMap j
  rw [(removeCronFor_fields _ _).1, stopTimerFor_map_ne _ i j h]

theorem armedTimer_scheduleReminder_ne (st : BotState) (i j : Nat) (r : Row) (h : j ≠ i)
    (t : TimerObj) (ha : armedTimer st j = some t) :
    armedTimer (scheduleReminder st i r) j = some t := by
  unfold armedTimer at ha ⊢
  rw [scheduleReminder_map, scheduleReminder_timers, lookupA_insertA_ne _ _ _ _ h]
  cases hidx : lookupA st.remindersMap j with
  | none => rw [hidx] at ha; simp at ha
  | some idx =>
    rw [hidx] at ha
    exact nth_append_some _ _ _ _ ha

theorem recoverRow_eq_recurring (parse : CronParse) (now : Int) (st : BotState) (r : Row)
    (h : isRecurring r = true) :
    recoverRow parse now st r = scheduleRecurringReminder st parse r.id r := by
  unfold recoverRow
  rw [if_pos h]

theorem recoverRow_eq_arm (parse : CronParse) (now : Int) (st : BotState) (r : Row)
    (due : Int) (h : isRecurring r = false) (hdt : r.dueTime = some due)
    (hlt : now < due) :
    recoverRow parse now st r = scheduleReminder st r.id r := by
  unfold recoverRow
  rw [if_neg (by simp [h]), hdt]
  show (if now < due then scheduleReminder st r.id r else deleteReminder st r.id) = _
  rw [if_pos hlt]

theorem recoverRow_eq_drop (parse : CronParse) (now : Int) (st : BotState) (r : Row)
    (due : Int) (h : isRecurring r = false) (hdt : r.dueTime = some due)
    (hnlt : ¬ now < due) :
    recoverRow parse now st r = deleteReminder st r.id := by
  unfold recoverRow
  rw [if_neg (by simp [h]), hdt]
  show (if now < due then scheduleReminder st r.id r else deleteReminder st r.id) = _
  rw [if_neg hnlt]

theorem recoverRow_eq_skip (parse : CronParse) (now : Int) (st : BotState) (r : Row)
    (h : isRecurring r = false) (hdt : r.dueTime = none) :
    recoverRow parse now st r = st := by
  unfold recoverRow
  rw [if_neg (by simp [h]), hdt]

theorem scheduleRecurringReminder_map (st : BotState) (parse : CronParse) (id : Nat)
    (r : Row) :
    (scheduleRecurringReminder st parse id r).remindersMap = st.remindersMap := by
  unfold scheduleRecurringReminder
  cases parse (r.cronExpr.getD "") <;> rfl

theorem scheduleRecurringReminder_timers (st : BotState) (parse : CronParse) (id : Nat)
    (r : Row) :
    (scheduleRecurringReminder st parse id r).timers = st.timers := by
  unfold scheduleRecurringReminder
  cases parse (r.cronExpr.getD "") <;> rfl

theorem scheduleRecurringReminder_rows (st : BotState) (parse : CronParse) (id : Nat)
    (r : Row) :
    (scheduleRecurringReminder st parse id r).rows = st.rows := by
  unfold scheduleRecurringReminder
  cases parse (r.cronExpr.getD "") <;> rfl

theorem scheduleRecurringReminder_sent (st : BotState) (parse : CronParse) (id : Nat)
    (r : Row) :
    (scheduleRecurringReminder st parse id r).sent = st.sent := by
  unfold scheduleRecurringReminder
  cases parse (r.cronExpr.getD "") <;> rfl

theorem scheduleRecurringReminder_cron_ne (st : BotState) (parse : CronParse) (id j : Nat)
    (r : Row) (h : j ≠ id) :
    lookupA (scheduleRecurringReminder st parse id r).cronEntries j
      = lookupA st.cronEntries j := by
  unfold scheduleRecurringReminder
  cases parse (r.cronExpr.getD "") with
  | none => rfl
  | some sched => exact lookupA_insertA_ne _ _ _ _ h

theorem recoverRow_preserves (parse : CronParse) (now : Int) (st : BotState) (rp : Row)
    (j : Nat) (hne : rp.id ≠ j) (hm : lookupA st.remindersMap rp.id = none) :
    lookupA (recoverRow parse now st rp).cronEntries j = lookupA st.cronEntries j
      ∧ lookupA (recoverRow parse now st rp).remindersMap j = lookupA st.remindersMap j
      ∧ (∀ t, armedTimer st j = some t → armedTimer (recoverRow parse now st rp) j = some t)
      ∧ (idInList st.rows j = false → idInList (recoverRow parse now st rp).rows j = false)
      ∧ (recoverRow parse now st rp).sent = st.sent := by
  have hjne : j ≠ rp.id := fun hh => hne hh.symm
  cases hrec : isRecurring rp with
  | true =>
    rw [recoverRow_eq_recurring parse now st rp hrec]
    refine ⟨scheduleRecurringReminder_cron_ne st parse rp.id j rp hjne, ?_, ?_, ?_,
      scheduleRecurringReminder_sent st parse rp.id rp⟩
    · rw [scheduleRecurringReminder_map]
    · intro t ht
      unfold armedTimer at ht ⊢
      rw [scheduleRecurringReminder_map, scheduleRecurringReminder_timers]
      exact ht
    · intro h
      rw [scheduleRecurringReminder_rows]
      exact h
  | false =>
    cases hdt : rp.dueTime with
    | none =>
      rw [recoverRow_eq_skip parse now st rp hrec hdt]
      exact ⟨rfl, rfl, fun t ht => ht, fun h => h, rfl⟩
    | some due =>
      by_cases hlt : now < due
      · rw [recoverRow_eq_arm parse now st rp due hrec hdt hlt]
        refine ⟨rfl, ?_, fun t ht => armedTimer_scheduleReminder_ne st rp.id j rp hjne t ht,
          fun h => h, rfl⟩
        rw [scheduleReminder_map]
        exact lookupA_insertA_ne _ _ _ _ hjne
      · rw [recoverRow_eq_drop parse now st rp due hrec hdt hlt]
        refine ⟨deleteReminder_cron_ne st rp.id j hjne,
          deleteReminder_map_ne st rp.id j hjne, fun t ht => ?_, fun h => ?_,
          deleteReminder_sent st rp.id⟩
        · unfold armedTimer at ht ⊢
          rw [deleteReminder_fresh_map st rp.id hm, deleteReminder_fresh_timers st rp.id hm]
          exact ht
        · rw [deleteReminder_rows]
          exact idInList_removeRows_mono _ _ _ h

theorem recoverRow_establishes (parse : CronParse) (now : Int) (st : BotState) (r : Row) :
    rowRecovered parse now (recoverRow parse now st r) r := by
  refine ⟨fun hrec hp => ?_, fun hrec hsome hlt => ?_, fun hrec hsome hle => ?_⟩
  · rw [recoverRow_eq_recurring parse now st r hrec]
    unfold scheduleRecurringReminder
    cases hps : parse (r.cronExpr.getD "") with
    | none => rw [hps] at hp; simp at hp
    | some sched => simp [lookupA_insertA_self]
  · cases hdt : r.dueTime with
    | none => simp [hdt] at hsome
    | some due =>
      rw [hdt, Option.getD_some] at hlt
      rw [Option.getD_some]
      rw [recoverRow_eq_arm parse now st r due hrec hdt hlt]
      unfold armedTimer
      rw [scheduleReminder_map, scheduleReminder_timers, lookupA_insertA_self, hdt,
        Option.getD_some]
      exact nth_append_length st.timers _
  · cases hdt : r.dueTime with
    | none => simp [hdt] at hsome
    | some due =>
      rw [hdt, Option.getD_some] at hle
      have hnlt : ¬ now < due := by omega
      rw [recoverRow_eq_drop parse now st r due hrec hdt hnlt]
      refine ⟨deleteReminder_map_self st r.id, ?_⟩
      rw [deleteReminder_rows]
      exact idInList_removeRows_self _ _

theorem recoverFold_preserves (parse : CronParse) (now : Int) :
    ∀ (rest : List Row) (st : BotState) (j : Nat),
      (∀ rp ∈ rest, rp.id ≠ j) →
      (rest.map Row.id).Nodup →
      (∀ rp ∈ rest, lookupA st.remindersMap rp.id = none) →
      lookupA (rest.foldl (recoverRow parse now) st).cronEntries j
          = lookupA st.cronEntries j
        ∧ lookupA (rest.foldl (recoverRow parse now) st).remindersMap j
          = lookupA st.remindersMap j
        ∧ (∀ t, armedTimer st j = some t →
            armedTimer (rest.foldl (recoverRow parse now) st) j = some t)
        ∧ (idInList st.rows j = false →
            idInList (rest.foldl (recoverRow parse now) st).rows j = false)
        ∧ (rest.foldl (recoverRow parse now) st).sent = st.sent := by
  intro rest
  induction rest with
  | nil =>
    intro st j _ _ _
    exact ⟨rfl, rfl, fun t ht => ht, fun h => h, rfl⟩
  | cons r1 rest ih =>
    intro st j hne hnd hm
    rw [List.map_cons, List.nodup_cons] at hnd
    obtain ⟨hnotmem, hnd2⟩ := hnd
    have hr1j : r1.id ≠ j := hne r1 (by simp)
    have hm1 : lookupA st.remindersMap r1.id = none := hm r1 (by simp)
    have step := recoverRow_preserves parse now st r1 j hr1j hm1
    have hm2 : ∀ rp ∈ rest,
        lookupA (recoverRow parse now st r1).remindersMap rp.id = none := by
      intro rp hrp
      have hne2 : r1.id ≠ rp.id := fun hh =>
        hnotmem (hh ▸ List.mem_map_of_mem Row.id hrp)
      rw [(recoverRow_preserves parse now st r1 rp.id hne2 hm1).2.1]
      exact hm rp (by simp [hrp])
    have hne3 : ∀ rp ∈ rest, rp.id ≠ j := fun rp hrp => hne rp (by simp [hrp])
    have tail := ih (recoverRow parse now st r1) j hne3 hnd2 hm2
    refine ⟨?_, ?_, ?_, ?_, ?_⟩
    · rw [List.foldl_cons, tail.1, step.1]
    · rw [List.foldl_cons, tail.2.1, step.2.1]
    · intro t ht
      rw [List.foldl_cons]
      exact tail.2.2.1 t (step.2.2.1 t ht)
    · intro h
      rw [List.foldl_cons]
      exact tail.2.2.2.1 (step.2.2.2.1 h)
    · rw [List.foldl_cons, tail.2.2.2.2, step.2.2.2.2]

theorem recoverFold_sound (parse : CronParse) (now : Int) :
    ∀ (rs : List Row) (st : BotState),
      (rs.map Row.id).Nodup →
      (∀ rp ∈ rs, lookupA st.remindersMap rp.id = none) →
      ∀ r ∈ rs, rowRecovered parse now (rs.foldl (recoverRow parse now) st) r := by
  intro rs
  induction rs with
  | nil =>
    intro st _ _ r hr
    exact absurd hr (List.not_mem_nil r)
  | cons r1 rest ih =>
    intro st hnd hm r hr
    rw [List.map_cons, List.nodup_cons] at hnd
    obtain ⟨hnotmem, hnd2⟩ := hnd
    have hm1 : lookupA st.remindersMap r1.id = none := hm r1 (by simp)
    have hm2 : ∀ rp ∈ rest,
        lookupA (recoverRow parse now st r1).remindersMap rp.id = none := by
      intro rp hrp
      have hne2 : r1.id ≠ rp.id := fun hh =>
        hnotmem (hh ▸ List.mem_map_of_mem Row.id hrp)
      rw [(recoverRow_preserves parse now st r1 rp.id hne2 hm1).2.1]
      exact hm rp (by simp [hrp])
    rw [List.foldl_cons]
    rcases List.mem_cons.mp hr with h1 | h2
    · subst h1
      have est := recoverRow_establishes parse now st r
      have hneall : ∀ rp ∈ rest, rp.id ≠ r.id := fun rp hrp hh =>
        hnotmem (hh ▸ List.mem_map_of_mem Row.id hrp)
      have pres := recoverFold_preserves parse now rest (recoverRow parse now st r) r.id
        hneall hnd2 hm2
      obtain ⟨e1, e2, e3⟩ := est
      refine ⟨fun hrec hp => ?_, fun hrec hsome hlt => ?_, fun hrec hsome hle => ?_⟩
      · rw [pres.1]
        exact e1 hrec hp
      · exact pres.2.2.1 _ (e2 hrec hsome hlt)
      · obtain ⟨m1, m2⟩ := e3 hrec hsome hle
        exact ⟨by rw [pres.2.1]; exact m1, pres.2.2.2.1 m2⟩
    · exact ih (recoverRow parse now st r1) hnd2 hm2 r h2

theorem recoverRow_sent (parse : CronParse) (now : Int) (st : BotState) (r : Row) :
    (recoverRow parse now st r).sent = st.sent := by
  cases hrec : isRecurring r with
  | true => rw [recoverRow_eq_recurring parse now st r hrec, scheduleRecurringReminder_sent]
  | false =>
    cases hdt : r.dueTime with
    | none => rw [recoverRow_eq_skip parse now st r hrec hdt]
    | some due =>
      by_cases hlt : now < due
      · rw [recoverRow_eq_arm parse now st r due hrec hdt hlt]
        rfl
      · rw [recoverRow_eq_drop parse now st r due hrec hdt hlt, deleteReminder_sent]

theorem recoverFold_sent (parse : CronParse) (now : Int) :
    ∀ (rs : List Row) (st : BotState),
      (rs.foldl (recoverRow parse now) st).sent = st.sent := by
  intro rs
  induction rs with
  | nil => intro st; rfl
  | cons r1 rest ih =>
    intro st
    rw [List.foldl_cons, ih, recoverRow_sent]

/-- Claim C1: the recovery pass (`scheduleAllReminders`, run once at
startup over every persisted record) re-schedules every record with a
recurring schedule unconditionally (no time condition; the sole proviso
is that the persisted expression compiles, unparsable records being
skipped per the error-handling policy); re-arms every one-shot record
whose due instant is strictly after the current time with a live timer
at that instant; and for every one-shot record due at-or-before the
current time, deletes the record from the store without arming it —
and the whole pass delivers nothing.  Hypotheses: persisted ids are
unique (primary key) and, at startup, none of them is armed yet. -/
theorem scheduleAllReminders_recovers_each_row (st : BotState) (now : Int)
    (parse : CronParse) (hnd : (st.rows.map Row.id).Nodup)
    (hfresh : ∀ r ∈ st.rows, lookupA st.remindersMap r.id = none) :
    (∀ r ∈ st.rows, rowRecovered parse now (scheduleAllReminders st now parse) r)
      ∧ (scheduleAllReminders st now parse).sent = st.sent :=
  ⟨recoverFold_sound parse now st.rows st hnd hfresh, recoverFold_sent parse now st.rows st⟩

/-- Concrete recovery run at instant 10 over a recurring row, a future
one-shot (due 20) and an overdue one-shot (due 5), discharging the
hypotheses of `scheduleAllReminders_recovers_each_row`. -/
theorem scheduleAllReminders_recovers_each_row_witness :
    ((recoveryState.rows.map Row.id).Nodup
        ∧ ∀ r ∈ recoveryState.rows, lookupA recoveryState.remindersMap r.id = none)
      ∧ rowRecovered parseW 10 (scheduleAllReminders recoveryState 10 parseW) rowPast
      ∧ (scheduleAllReminders recoveryState 10 parseW).sent = recoveryState.sent :=
  ⟨⟨by decide, by decide⟩,
   (scheduleAllReminders_recovers_each_row recoveryState 10 parseW (by decide)
     (by decide)).1 rowPast (by decide),
   (scheduleAllReminders_recovers_each_row recoveryState 10 parseW (by decide)
     (by decide)).2⟩

/-- Claim C2 counterexample: arm id 1 (due 100), then arm id 1 again
(due 200).  The previously armed timer (position 0) is still live
(`stopped = false`) even though the map now points at the new timer
(position 1): re-arming does not disarm the old entry, so it can still
fire. -/
theorem rearm_leaves_old_timer_live_cex :
    nth (scheduleReminder armedOnce 1 rowOneShotB).timers 0
        = some { rid := 1, due := 100, stopped := false }
      ∧ lookupA (scheduleReminder armedOnce 1 rowOneShotB).remindersMap 1 = some 1 :=
  ⟨rfl, rfl⟩

/-- Claim C2 (amended): arming an id that already has an armed entry
overwrites the map binding — the map afterwards points at the fresh
timer, so it holds at most one binding per id and bindings of other ids
are untouched — but the previously armed timer object is NOT stopped:
every pre-existing timer, its stopped flag included, is left exactly as
it was, so the replaced entry can still fire. -/
theorem scheduleReminder_overwrites_without_stopping (st : BotState) (id : Nat) (r : Row) :
    lookupA (scheduleReminder st id r).remindersMap id = some st.timers.length
      ∧ (∀ i t, nth st.timers i = some t →
          nth (scheduleReminder st id r).timers i = some t)
      ∧ (∀ j, j ≠ id → lookupA (scheduleReminder st id r).remindersMap j
          = lookupA st.remindersMap j) := by
  refine ⟨?_, ?_, ?_⟩
  · rw [scheduleReminder_map]
    exact lookupA_insertA_self _ _ _
  · intro i t ht
    rw [scheduleReminder_timers]
    exact nth_append_some _ _ _ _ ht
  · intro j hj
    rw [scheduleReminder_map]
    exact lookupA_insertA_ne _ _ _ _ hj

/-- Concrete re-arm of id 1 discharging the hypotheses of
`scheduleReminder_overwrites_without_stopping`. -/
theorem scheduleReminder_overwrites_without_stopping_witness :
    lookupA (scheduleReminder armedOnce 1 rowOneShotB).remindersMap 1
        = some armedOnce.timers.length
      ∧ nth (scheduleReminder armedOnce 1 rowOneShotB).timers 0
          = some { rid := 1, due := 100, stopped := false }
      ∧ lookupA (scheduleReminder armedOnce 1 rowOneShotB).remindersMap 2
          = lookupA armedOnce.remindersMap 2 :=
  ⟨(scheduleReminder_overwrites_without_stopping armedOnce 1 rowOneShotB).1,
   (scheduleReminder_overwrites_without_stopping armedOnce 1 rowOneShotB).2.1 0
     { rid := 1, due := 100, stopped := false } (by decide),
   (scheduleReminder_overwrites_without_stopping armedOnce 1 rowOneShotB).2.2 2 (by decide)⟩

/-- Claim C3 counterexample: a one-shot whose computed due instant
equals the current time (both 5) is NOT rejected: the handler accepts
it, persists the row under the fresh id 1 and returns that id,
contradicting the claim that a due instant exactly equal to the current
time yields the in-the-past error with nothing persisted. -/
theorem remind_at_now_accepted_cex :
    (handleRemindCommand emptyState 5 5 "chan" "alice" "tea" true).2 = Except.ok 1
      ∧ idInList (handleRemindCommand emptyState 5 5 "chan" "alice" "tea" true).1.rows 1
          = true :=
  ⟨rfl, rfl⟩

theorem handleRemindCommand_accepts (st : BotState) (now due : Int) (ch u msg : String)
    (h : ¬ due < now) :
    handleRemindCommand st now due ch u msg true
      = (scheduleReminder
          { st with rows := st.rows ++ [mkOneShotRow st.nextId ch u msg due],
                    nextId := st.nextId + 1 }
          st.nextId (mkOneShotRow 0 ch u msg due),
        Except.ok st.nextId) := by
  unfold handleRemindCommand
  rw [if_neg h]
  rfl

/-- Claim C3 (amended): the one-shot submission rejects with the
in-the-past error exactly when the computed due instant is strictly
before the current time, in which case the state is returned unchanged
(nothing persisted, nothing armed); a due instant at-or-after the
current time — including exactly equal to it — is accepted: with a
working store the row is persisted under the fresh id and a live timer
for that id at the due instant is armed. -/
theorem handleRemindCommand_rejects_iff_strictly_past (st : BotState) (now due : Int)
    (ch u msg : String) :
    (due < now → handleRemindCommand st now due ch u msg true = (st, .error .inThePast))
      ∧ (¬ due < now →
          (handleRemindCommand st now due ch u msg true).2 = Except.ok st.nextId
            ∧ armedTimer (handleRemindCommand st now due ch u msg true).1 st.nextId
              = some { rid := st.nextId, due := due, stopped := false }
            ∧ idInList (handleRemindCommand st now due ch u msg true).1.rows st.nextId
              = true) := by
  constructor
  · intro h
    unfold handleRemindCommand
    rw [if_pos h]
  · intro h
    rw [handleRemindCommand_accepts st now due ch u msg h]
    refine ⟨rfl, ?_, ?_⟩
    · unfold armedTimer
      rw [scheduleReminder_map, scheduleReminder_timers, lookupA_insertA_self]
      exact nth_append_length _ _
    · show idInList (st.rows ++ [mkOneShotRow st.nextId ch u msg due]) st.nextId = true
      exact idInList_append_self _ _ _ rfl

/-- Concrete runs discharging both directions of
`handleRemindCommand_rejects_iff_strictly_past`: due 3 before now 7 is
rejected; due 5 at now 5 is accepted and returns id 1. -/
theorem handleRemindCommand_rejects_iff_strictly_past_witness :
    handleRemindCommand emptyState 7 3 "chan" "alice" "tea" true
        = (emptyState, .error .inThePast)
      ∧ (handleRemindCommand emptyState 5 5 "chan" "alice" "tea" true).2 = Except.ok 1 :=
  ⟨(handleRemindCommand_rejects_iff_strictly_past emptyState 7 3 "chan" "alice" "tea").1
     (by decide),
   ((handleRemindCommand_rejects_iff_strictly_past emptyState 5 5 "chan" "alice" "tea").2
     (by decide)).1⟩

/-- Claim C4 counterexample: record 1 is a ONE-SHOT reminder that is
moreover ALREADY marked paused, yet pausing it succeeds (returns ok and
re-stores the flag) instead of failing with a not-recurring (or
already-paused) error. -/
theorem pause_oneshot_already_paused_succeeds_cex :
    isRecurring { rowOneShotA with id := 1 } = false
      ∧ lookupA pausedOneShotState.pausedEntries 1 = some true
      ∧ handlePauseRecurringInteraction pausedOneShotState 1 "alice"
          = (pauseRecurringReminder pausedOneShotState 1, Except.ok 1) :=
  ⟨rfl, rfl, rfl⟩

/-- Claim C4 (amended): pause performs only the ownership check — when
the requester owns record `id` it always succeeds and (re)sets the
pause flag, even when the record is one-shot and even when it is
already paused (the code has no not-recurring and no already-paused
error); resume, after the same ownership check, does fail with the
not-paused error exactly when the pause flag is not set to true, and
clears the flag otherwise. -/
theorem pause_checks_only_ownership (st : BotState) (id : Nat) (req : String)
    (hown : isReminderOwner st id req = some true) :
    handlePauseRecurringInteraction st id req
        = (pauseRecurringReminder st id, Except.ok id)
      ∧ lookupA (pauseRecurringReminder st id).pausedEntries id = some true
      ∧ (lookupA st.pausedEntries id ≠ some true →
          handleResumeCommand st id req = (st, .error .notPaused))
      ∧ (lookupA st.pausedEntries id = some true →
          handleResumeCommand st id req = (resumeRecurringReminder st id, Except.ok id)) := by
  refine ⟨?_, ?_, ?_, ?_⟩
  · unfold handlePauseRecurringInteraction
    rw [hown]
  · exact lookupA_insertA_self _ _ _
  · intro h
    unfold handleResumeCommand
    rw [hown]
    cases hp : lookupA st.pausedEntries id with
    | none => rfl
    | some b =>
      cases b with
      | false => rfl
      | true => exact absurd hp h
  · intro h
    unfold handleResumeCommand
    rw [hown, h]

/-- Concrete runs discharging the hypotheses of
`pause_checks_only_ownership`: pausing the (one-shot, already-paused)
record 1 succeeds; resume errors when the flag is absent and succeeds
when present. -/
theorem pause_checks_only_ownership_witness :
    isReminderOwner pausedOneShotState 1 "alice" = some true
      ∧ handlePauseRecurringInteraction pausedOneShotState 1 "alice"
          = (pauseRecurringReminder pausedOneShotState 1, Except.ok 1)
      ∧ handleResumeCommand unpausedOneShotState 1 "alice"
          = (unpausedOneShotState, .error .notPaused)
      ∧ handleResumeCommand pausedOneShotState 1 "alice"
          = (resumeRecurringReminder pausedOneShotState 1, Except.ok 1) :=
  ⟨by decide,
   (pause_checks_only_ownership pausedOneShotState 1 "alice" (by decide)).1,
   (pause_checks_only_ownership unpausedOneShotState 1 "alice" (by decide)).2.2.1
     (by decide),
   (pause_checks_only_ownership pausedOneShotState 1 "alice" (by decide)).2.2.2
     (by decide)⟩

theorem cronDeliveries_length (next : Int → Int) (p : Nat → List (Nat × Bool)) (id : Nat)
    (t0 : Int) (n : Nat) : (cronDeliveries next p id t0 n).length = n := by
  induction n with
  | zero => rfl
  | succ n ih => simp [cronDeliveries, ih]

theorem nth_cronDeliveries (next : Int → Int) (p : Nat → List (Nat × Bool)) (id : Nat)
    (t0 : Int) (n k : Nat) (hk : k < n) :
    nth (cronDeliveries next p id t0 n) k
      = some (cronOcc next t0 (k + 1), recurringFireDelivers (p k) id) := by
  induction n with
  | zero => omega
  | succ n ih =>
    rcases Nat.lt_succ_iff_lt_or_eq.mp hk with h | h
    · exact nth_append_some _ _ _ _ (ih h)
    · subst h
      have hlen := nth_append_length (cronDeliveries next p id t0 k)
        (cronOcc next t0 (k + 1), recurringFireDelivers (p k) id)
      rw [cronDeliveries_length] at hlen
      exact hlen

/-- Claim C5: on every due instant of a recurring entry the driver runs
the callback, which delivers exactly when the id is not marked paused
at that tick: a paused tick is recorded (the schedule advances to the
next occurrence exactly as when unpaused — the entry stays registered
and its occurrences are used up) but delivers nothing, and once the
pause flag is absent again the very next occurrence delivers; pausing
via `pauseRecurringReminder` makes the callback suppress, resuming via
`resumeRecurringReminder` makes it deliver. -/
theorem recurring_pause_suppresses_delivery_only (next : Int → Int)
    (pausedAt : Nat → List (Nat × Bool)) (st : BotState) (id : Nat) (t0 : Int)
    (n k : Nat) (hk : k < n) :
    nth (cronDeliveries next pausedAt id t0 n) k
        = some (cronOcc next t0 (k + 1), recurringFireDelivers (pausedAt k) id)
      ∧ (lookupA (pausedAt k) id = some true →
          recurringFireDelivers (pausedAt k) id = false)
      ∧ (lookupA (pausedAt k) id ≠ some true →
          recurringFireDelivers (pausedAt k) id = true)
      ∧ recurringFireDelivers (pauseRecurringReminder st id).pausedEntries id = false
      ∧ recurringFireDelivers (resumeRecurringReminder st id).pausedEntries id = true := by
  refine ⟨nth_cronDeliveries next pausedAt id t0 n k hk, fun h => ?_, fun h => ?_, ?_, ?_⟩
  · unfold recurringFireDelivers
    rw [h]
  · unfold recurringFireDelivers
    cases hp : lookupA (pausedAt k) id with
    | none => rfl
    | some b =>
      cases b with
      | false => rfl
      | true => exact absurd hp h
  · unfold recurringFireDelivers pauseRecurringReminder
    rw [lookupA_insertA_self]
  · unfold recurringFireDelivers resumeRecurringReminder
    rw [lookupA_eraseA_self]

/-- Concrete two-tick run (paused on the first tick, unpaused on the
second) discharging the hypothesis of
`recurring_pause_suppresses_delivery_only`. -/
theorem recurring_pause_suppresses_delivery_only_witness :
    (0 : Nat) < 2
      ∧ (nth (cronDeliveries nextW pausedAtW 1 0 2) 0
            = some (cronOcc nextW 0 1, recurringFireDelivers (pausedAtW 0) 1)
          ∧ (lookupA (pausedAtW 0) 1 = some true →
              recurringFireDelivers (pausedAtW 0) 1 = false)
          ∧ (lookupA (pausedAtW 0) 1 ≠ some true →
              recurringFireDelivers (pausedAtW 0) 1 = true)
          ∧ recurringFireDelivers (pauseRecurringReminder emptyState 1).pausedEntries 1
              = false
          ∧ recurringFireDelivers (resumeRecurringReminder emptyState 1).pausedEntries 1
              = true) :=
  ⟨by decide,
   recurring_pause_suppresses_delivery_only nextW pausedAtW emptyState 1 0 2 0 (by decide)⟩

theorem stopTimerFor_timers_of_some (st : BotState) (i idx : Nat)
    (h : lookupA st.remindersMap i = some idx) :
    (stopTimerFor st i).timers = setStopped st.timers idx := by
  unfold stopTimerFor
  rw [h]

theorem removeCronFor_sched_of_some (st : BotState) (i e : Nat)
    (h : lookupA st.cronEntries i = some e) :
    (removeCronFor st i).cronSchedEntries = removeEntry st.cronSchedEntries e := by
  unfold removeCronFor
  rw [h]

/-- Claim C6: cancellation fails with not-found when no row with the id
exists — in particular a second cancel of an already-cancelled id
always yields not-found again, with no state change; it fails with
not-owner when the requester is not the record's owner; and on success
it deletes the store row, stops and drops an armed one-shot timer if
one exists, removes a recurring registration (both the `cronEntries`
binding and the scheduler's own entry) if one exists, and clears any
pause flag for the id. -/
theorem cancel_semantics (st : BotState) (id : Nat) (req : String) :
    (getReminderUserID st id = none →
        handleDeleteCommand st id req = (st, .error .notFound))
      ∧ (∀ o, getReminderUserID st id = some o → o ≠ req →
          handleDeleteCommand st id req = (st, .error .notOwner))
      ∧ (∀ o, getReminderUserID st id = some o → o = req →
          handleDeleteCommand st id req = (deleteReminder st id, Except.ok id)
            ∧ idInList (deleteReminder st id).rows id = false
            ∧ lookupA (deleteReminder st id).remindersMap id = none
            ∧ lookupA (deleteReminder st id).cronEntries id = none
            ∧ lookupA (deleteReminder st id).pausedEntries id = none
            ∧ (∀ idx t, lookupA st.remindersMap id = some idx →
                nth st.timers idx = some t →
                nth (deleteReminder st id).timers idx = some { t with stopped := true })
            ∧ (∀ e, lookupA st.cronEntries id = some e →
                containsEntry (deleteReminder st id).cronSchedEntries e = false)
            ∧ handleDeleteCommand (deleteReminder st id) id req
                = (deleteReminder st id, .error .notFound)) := by
  refine ⟨?_, ?_, ?_⟩
  · intro h
    unfold handleDeleteCommand isReminderOwner
    rw [h]
    rfl
  · intro o ho hne
    have hb : (o == req) = false := beq_eq_false_iff_ne.mpr hne
    unfold handleDeleteCommand isReminderOwner
    rw [ho]
    show (match some (o == req) with
      | none => (st, Except.error Err.notFound)
      | some false => (st, Except.error Err.notOwner)
      | some true => (deleteReminder st id, Except.ok id)) = (st, .error .notOwner)
    rw [hb]
  · intro o ho heq
    subst heq
    have hb : (o == o) = true := beq_self_eq_true o
    have hown : isReminderOwner st id o = some true := by
      unfold isReminderOwner
      rw [ho]
      show some (o == o) = some true
      rw [hb]
    refine ⟨?_, ?_, deleteReminder_map_self st id, deleteReminder_cron_self st id,
      deleteReminder_paused_self st id, ?_, ?_, ?_⟩
    · unfold handleDeleteCommand
      rw [hown]
    · rw [deleteReminder_rows]
      exact idInList_removeRows_self _ _
    · intro idx t hidx ht
      have htimers : (deleteReminder st id).timers = setStopped st.timers idx := by
        show (removeCronFor (stopTimerFor { st with rows := removeRows st.rows id } id)
          id).timers = setStopped st.timers idx
        rw [(removeCronFor_fields _ _).2.1]
        exact stopTimerFor_timers_of_some _ id idx hidx
      rw [htimers]
      exact nth_setStopped_self _ _ _ ht
    · intro e he
      have h2 : lookupA (stopTimerFor { st with rows := removeRows st.rows id }
          id).cronEntries id = some e := by
        rw [(stopTimerFor_cron _ _).1]
        exact he
      show containsEntry (removeCronFor (stopTimerFor
        { st with rows := removeRows st.rows id } id) id).cronSchedEntries e = false
      rw [removeCronFor_sched_of_some _ id e h2, (stopTimerFor_cron _ _).2]
      exact containsEntry_removeEntry_self _ _
    · have h3 : isReminderOwner (deleteReminder st id) id o = none := by
        unfold isReminderOwner getReminderUserID
        rw [deleteReminder_rows, findRow_removeRows_self]
        rfl
      unfold handleDeleteCommand
      rw [h3]

/-- Concrete cancel runs discharging the hypotheses of
`cancel_semantics`: not-found on an empty store, not-owner for bob,
and a successful cancel by alice that clears the row, stops the armed
timer (index 0), removes cron EntryID 7, clears the pause flag, and
makes a second cancel yield not-found. -/
theorem cancel_semantics_witness :
    (handleDeleteCommand emptyState 1 "alice" = (emptyState, .error .notFound)
        ∧ handleDeleteCommand fullState 1 "bob" = (fullState, .error .notOwner))
      ∧ (handleDeleteCommand fullState 1 "alice" = (deleteReminder fullState 1, Except.ok 1)
          ∧ idInList (deleteReminder fullState 1).rows 1 = false
          ∧ lookupA (deleteReminder fullState 1).remindersMap 1 = none
          ∧ lookupA (deleteReminder fullState 1).cronEntries 1 = none
          ∧ lookupA (deleteReminder fullState 1).pausedEntries 1 = none
          ∧ nth (deleteReminder fullState 1).timers 0
              = some { rid := 1, due := 50, stopped := true }
          ∧ containsEntry (deleteReminder fullState 1).cronSchedEntries 7 = false
          ∧ handleDeleteCommand (deleteReminder fullState 1) 1 "alice"
              = (deleteReminder fullState 1, .error .notFound)) := by
  have h3 := (cancel_semantics fullState 1 "alice").2.2 "alice" (by decide) rfl
  exact ⟨⟨(cancel_semantics emptyState 1 "alice").1 (by decide),
      (cancel_semantics fullState 1 "bob").2.1 "alice" (by decide) (by decide)⟩,
    h3.1, h3.2.1, h3.2.2.1, h3.2.2.2.1, h3.2.2.2.2.1,
    h3.2.2.2.2.2.1 0 { rid := 1, due := 50, stopped := false } (by decide) (by decide),
    h3.2.2.2.2.2.2.1 7 (by decide), h3.2.2.2.2.2.2.2⟩

theorem saveReminder_oneshot (st : BotState) (r : Row) (hrec : isRecurring r = false) :
    saveReminder st r true
      = some (st.nextId,
          { st with rows := st.rows ++ [{ r with id := st.nextId, cronExpr := none }],
                    nextId := st.nextId + 1 }) := by
  simp [saveReminder, hrec]

theorem handleSnoozeInteraction_eq (st : BotState) (now : Int) (id : Nat)
    (value req : String) (msgAge : Int) (pd : String → Option Int) (ok : Bool) (r : Row)
    (hage : ¬ 300 < msgAge) (hold : lookupA st.snoozedEntries id = some r) :
    handleSnoozeInteraction st now id value req msgAge pd ok
      = snoozeResave st now id value pd ok r := by
  unfold handleSnoozeInteraction
  rw [if_neg hage, hold]

theorem handleSnoozeInteraction_no_hold (st : BotState) (now : Int) (id : Nat)
    (value req : String) (msgAge : Int) (pd : String → Option Int) (ok : Bool)
    (hage : ¬ 300 < msgAge) (hold : lookupA st.snoozedEntries id = none) :
    handleSnoozeInteraction st now id value req msgAge pd ok
      = (st, .error .snoozeExpired) := by
  unfold handleSnoozeInteraction
  rw [if_neg hage, hold]

theorem snoozeResave_fail (st : BotState) (now : Int) (id : Nat) (value : String)
    (pd : String → Option Int) (r : Row) :
    snoozeResave st now id value pd false r
      = ({ st with snoozedEntries := eraseA st.snoozedEntries id },
         .error .storeFailure) := rfl

theorem snoozeResave_success (st : BotState) (now : Int) (id : Nat) (value : String)
    (pd : String → Option Int) (r : Row) (hrec : isRecurring r = false) :
    snoozeResave st now id value pd true r
      = ({ scheduleReminder
            { st with rows := st.rows ++ [snoozedStoredRow st now value pd r],
                      nextId := st.nextId + 1 }
            st.nextId (snoozedNewRow now value pd r)
          with snoozedEntries := eraseA st.snoozedEntries id },
         Except.ok st.nextId) := by
  simp only [snoozeResave]
  rw [saveReminder_oneshot st (snoozedNewRow now value pd r) hrec]
  rfl

theorem snoozeSuccess_facts (st : BotState) (now : Int) (id : Nat) (value req : String)
    (msgAge : Int) (pd : String → Option Int) (r : Row)
    (hage : ¬ 300 < msgAge) (hold : lookupA st.snoozedEntries id = some r)
    (hrec : isRecurring r = false) (hfresh : idInList st.rows st.nextId = false) :
    (handleSnoozeInteraction st now id value req msgAge pd true).2 = Except.ok st.nextId
      ∧ findRow (handleSnoozeInteraction st now id value req msgAge pd true).1.rows
          st.nextId = some (snoozedStoredRow st now value pd r)
      ∧ armedTimer (handleSnoozeInteraction st now id value req msgAge pd true).1 st.nextId
          = some { rid := st.nextId, due := now + (pd value).getD 0, stopped := false }
      ∧ lookupA (handleSnoozeInteraction st now id value req msgAge pd
          true).1.snoozedEntries id = none
      ∧ handleSnoozeInteraction (handleSnoozeInteraction st now id value req msgAge pd
          true).1 now id value req msgAge pd true
          = ((handleSnoozeInteraction st now id value req msgAge pd true).1,
             .error .snoozeExpired) := by
  have hred := handleSnoozeInteraction_eq st now id value req msgAge pd true r hage hold
  rw [hred, snoozeResave_success st now id value pd r hrec]
  refine ⟨rfl, ?_, ?_, ?_, ?_⟩
  · show findRow (st.rows ++ [snoozedStoredRow st now value pd r]) st.nextId
        = some (snoozedStoredRow st now value pd r)
    exact findRow_append_fresh _ _ _ hfresh rfl
  · unfold armedTimer
    rw [scheduleReminder_map, scheduleReminder_timers, lookupA_insertA_self]
    exact nth_append_length _ _
  · exact lookupA_eraseA_self _ _
  · exact handleSnoozeInteraction_no_hold _ now id value req msgAge pd true hage
      (lookupA_eraseA_self _ _)

/-- Claim C7: snooze fails with the snooze-expired error when no hold
exists for the id (never fired, or the 5-minute window lapsed); on
success it persists a brand-new one-shot carrying the held record's
destination, owner and message with due instant now plus the chosen
delay, arms it, discards the hold, and returns the new id — after
which a second snooze with the old id fails with snooze-expired. -/
theorem snooze_semantics (st : BotState) (now : Int) (id : Nat) (value req : String)
    (msgAge : Int) (pd : String → Option Int) :
    (msgAge ≤ 300 → lookupA st.snoozedEntries id = none →
        handleSnoozeInteraction st now id value req msgAge pd true
          = (st, .error .snoozeExpired))
      ∧ (∀ r d, msgAge ≤ 300 → lookupA st.snoozedEntries id = some r →
          isRecurring r = false → pd value = some d → idInList st.rows st.nextId = false →
          (handleSnoozeInteraction st now id value req msgAge pd true).2
              = Except.ok st.nextId
            ∧ findRow (handleSnoozeInteraction st now id value req msgAge pd true).1.rows
                st.nextId = some (snoozedStoredRow st now value pd r)
            ∧ (snoozedStoredRow st now value pd r).dueTime = some (now + d)
            ∧ armedTimer (handleSnoozeInteraction st now id value req msgAge pd true).1
                st.nextId = some { rid := st.nextId, due := now + d, stopped := false }
            ∧ (snoozedStoredRow st now value pd r).channelID = r.channelID
            ∧ (snoozedStoredRow st now value pd r).userID = r.userID
            ∧ (snoozedStoredRow st now value pd r).message = r.message
            ∧ lookupA (handleSnoozeInteraction st now id value req msgAge pd
                true).1.snoozedEntries id = none
            ∧ handleSnoozeInteraction (handleSnoozeInteraction st now id value req msgAge
                pd true).1 now id value req msgAge pd true
                = ((handleSnoozeInteraction st now id value req msgAge pd true).1,
                   .error .snoozeExpired)) := by
  constructor
  · intro hage hnone
    exact handleSnoozeInteraction_no_hold st now id value req msgAge pd true
      (by omega) hnone
  · intro r d hage hold hrec hd hfresh
    have hb := snoozeSuccess_facts st now id value req msgAge pd r (by omega) hold
      hrec hfresh
    have hzero : now + (pd value).getD 0 = now + d := by
      rw [hd]
      rfl
    refine ⟨hb.1, hb.2.1, ?_, ?_, rfl, rfl, rfl, hb.2.2.2.1, hb.2.2.2.2⟩
    · show some (now + (pd value).getD 0) = some (now + d)
      rw [hzero]
    · rw [hb.2.2.1, hzero]

/-- Concrete snooze runs discharging the hypotheses of
`snooze_semantics`: no hold on a fresh state errors; snoozing held
reminder 1 for the parseable delay 5m (300 s) succeeds with new id 2
and a second snooze with id 1 errors. -/
theorem snooze_semantics_witness :
    (lookupA holdState.snoozedEntries 1 = some rowOneShotA ∧ pdW "5m" = some 300)
      ∧ handleSnoozeInteraction emptyState 0 1 "5m" "bob" 0 pdW true
          = (emptyState, .error .snoozeExpired)
      ∧ (handleSnoozeInteraction holdState 1000 1 "5m" "bob" 60 pdW true).2 = Except.ok 2
      ∧ handleSnoozeInteraction (handleSnoozeInteraction holdState 1000 1 "5m" "bob" 60
          pdW true).1 1000 1 "5m" "bob" 60 pdW true
          = ((handleSnoozeInteraction holdState 1000 1 "5m" "bob" 60 pdW true).1,
             .error .snoozeExpired) := by
  have h := (snooze_semantics holdState 1000 1 "5m" "bob" 60 pdW).2 rowOneShotA 300
    (by decide) (by decide) (by decide) (by decide) (by decide)
  exact ⟨⟨by decide, by decide⟩,
    (snooze_semantics emptyState 0 1 "5m" "bob" 0 pdW).1 (by decide) (by decide),
    h.1, h.2.2.2.2.2.2.2.2⟩

/-- Claim C9: the snooze handler performs no ownership check: its
result is identical for every interacting user (the requester argument
is never consulted), and the reminder created on success carries the
held record's owner and destination, not the snoozing user's. -/
theorem snooze_has_no_ownership_check (st : BotState) (now : Int) (id : Nat)
    (value req1 req2 : String) (msgAge : Int) (pd : String → Option Int) (ok : Bool) :
    handleSnoozeInteraction st now id value req1 msgAge pd ok
        = handleSnoozeInteraction st now id value req2 msgAge pd ok
      ∧ (∀ r, msgAge ≤ 300 → lookupA st.snoozedEntries id = some r →
          isRecurring r = false → idInList st.rows st.nextId = false →
          (handleSnoozeInteraction st now id value req1 msgAge pd true).2
              = Except.ok st.nextId
            ∧ (findRow (handleSnoozeInteraction st now id value req1 msgAge pd
                true).1.rows st.nextId).map Row.userID = some r.userID
            ∧ (findRow (handleSnoozeInteraction st now id value req1 msgAge pd
                true).1.rows st.nextId).map Row.channelID = some r.channelID) := by
  refine ⟨rfl, ?_⟩
  intro r hage hold hrec hfresh
  have hb := snoozeSuccess_facts st now id value req1 msgAge pd r (by omega) hold
    hrec hfresh
  refine ⟨hb.1, ?_, ?_⟩
  · rw [hb.2.1]
    rfl
  · rw [hb.2.1]
    rfl

/-- Concrete run discharging the hypotheses of
`snooze_has_no_ownership_check`: intruder, who does not own held
reminder 1 (owned by alice), snoozes it successfully, and the new row
keeps alice as owner and the original channel. -/
theorem snooze_has_no_ownership_check_witness :
    handleSnoozeInteraction holdState 1000 1 "5m" "intruder" 60 pdW true
        = handleSnoozeInteraction holdState 1000 1 "5m" "alice" 60 pdW true
      ∧ ((handleSnoozeInteraction holdState 1000 1 "5m" "intruder" 60 pdW true).2
            = Except.ok 2
          ∧ (findRow (handleSnoozeInteraction holdState 1000 1 "5m" "intruder" 60 pdW
              true).1.rows 2).map Row.userID = some "alice"
          ∧ (findRow (handleSnoozeInteraction holdState 1000 1 "5m" "intruder" 60 pdW
              true).1.rows 2).map Row.channelID = some "chan") := by
  have h := snooze_has_no_ownership_check holdState 1000 1 "5m" "intruder" "alice" 60
    pdW true
  exact ⟨h.1, h.2 rowOneShotA (by decide) (by decide) (by decide) (by decide)⟩

/-- Claim C10: when the chosen delay string does not parse, the parse
error is ignored and the delay is treated as zero: the snooze is not
rejected — it succeeds, the new row's due instant equals the current
time, and the armed timer is live and already due, so it fires
immediately. -/
theorem snooze_bad_delay_fires_immediately (st : BotState) (now : Int) (id : Nat)
    (value req : String) (msgAge : Int) (pd : String → Option Int) (r : Row)
    (hage : msgAge ≤ 300) (hold : lookupA st.snoozedEntries id = some r)
    (hrec : isRecurring r = false) (hpd : pd value = none)
    (hfresh : idInList st.rows st.nextId = false) :
    (handleSnoozeInteraction st now id value req msgAge pd true).2 = Except.ok st.nextId
      ∧ (findRow (handleSnoozeInteraction st now id value req msgAge pd true).1.rows
          st.nextId).map Row.dueTime = some (some now)
      ∧ armedTimer (handleSnoozeInteraction st now id value req msgAge pd true).1
          st.nextId = some { rid := st.nextId, due := now, stopped := false }
      ∧ firesImmediately (handleSnoozeInteraction st now id value req msgAge pd true).1
          st.nextId now = true := by
  have hb := snoozeSuccess_facts st now id value req msgAge pd r (by omega) hold
    hrec hfresh
  have hzero : now + (pd value).getD 0 = now := by
    rw [hpd]
    simp
  refine ⟨hb.1, ?_, ?_, ?_⟩
  · rw [hb.2.1]
    show some (some (now + (pd value).getD 0)) = some (some now)
    rw [hzero]
  · rw [hb.2.2.1, hzero]
  · unfold firesImmediately
    rw [hb.2.2.1, hzero]
    simp

/-- Concrete run discharging the hypotheses of
`snooze_bad_delay_fires_immediately`: the menu value "oops" does not
parse, yet the snooze succeeds and the new reminder is due exactly at
the current time 1000. -/
theorem snooze_bad_delay_fires_immediately_witness :
    pdW "oops" = none
      ∧ ((handleSnoozeInteraction holdState 1000 1 "oops" "bob" 60 pdW true).2
            = Except.ok 2
          ∧ armedTimer (handleSnoozeInteraction holdState 1000 1 "oops" "bob" 60 pdW
              true).1 2 = some { rid := 2, due := 1000, stopped := false }
          ∧ firesImmediately (handleSnoozeInteraction holdState 1000 1 "oops" "bob" 60
              pdW true).1 2 1000 = true) := by
  have h := snooze_bad_delay_fires_immediately holdState 1000 1 "oops" "bob" 60 pdW
    rowOneShotA (by decide) (by decide) (by decide) (by decide) (by decide)
  exact ⟨by decide, h.1, h.2.2.1, h.2.2.2⟩

/-- Claim C8: when the store INSERT fails, every submission path
surfaces a failure and creates no scheduler registration: the one-shot
and recurring submissions return the state fully unchanged, and the
snooze re-submission leaves the timer table, the reminders map, the
cron tables and the rows untouched (only the transient hold is
discarded, as the code does that unconditionally). -/
theorem store_failure_creates_no_registration (st : BotState) (now due : Int)
    (parse : CronParse) (expr ch u msg value req : String) (id : Nat) (msgAge : Int)
    (pd : String → Option Int) :
    (¬ due < now →
        handleRemindCommand st now due ch u msg false = (st, .error .storeFailure))
      ∧ ((parse expr).isSome = true →
          handleRecurringCommand st parse expr ch u msg false
            = (st, .error .storeFailure))
      ∧ (∀ r, msgAge ≤ 300 → lookupA st.snoozedEntries id = some r →
          (handleSnoozeInteraction st now id value req msgAge pd false).1.timers
              = st.timers
            ∧ (handleSnoozeInteraction st now id value req msgAge pd false).1.remindersMap
              = st.remindersMap
            ∧ (handleSnoozeInteraction st now id value req msgAge pd false).1.cronEntries
              = st.cronEntries
            ∧ (handleSnoozeInteraction st now id value req msgAge pd
                false).1.cronSchedEntries = st.cronSchedEntries
            ∧ (handleSnoozeInteraction st now id value req msgAge pd false).1.rows
              = st.rows
            ∧ (handleSnoozeInteraction st now id value req msgAge pd false).2
              = .error .storeFailure) := by
  refine ⟨?_, ?_, ?_⟩
  · intro h
    unfold handleRemindCommand
    rw [if_neg h]
    rfl
  · intro hp
    cases hps : parse expr with
    | none =>
      rw [hps] at hp
      simp at hp
    | some s =>
      unfold handleRecurringCommand
      rw [hps]
      rfl
  · intro r hage hold
    have hred := handleSnoozeInteraction_eq st now id value req msgAge pd false r
      (by omega) hold
    rw [hred, snoozeResave_fail]
    exact ⟨rfl, rfl, rfl, rfl, rfl, rfl⟩

/-- Concrete failing-store runs discharging the hypotheses of
`store_failure_creates_no_registration`. -/
theorem store_failure_creates_no_registration_witness :
    handleRemindCommand holdState 5 9 "chan" "alice" "tea" false
        = (holdState, .error .storeFailure)
      ∧ handleRecurringCommand holdState parseW "0 * * * * *" "chan" "alice" "standup"
          false = (holdState, .error .storeFailure)
      ∧ ((handleSnoozeInteraction holdState 1000 1 "5m" "bob" 60 pdW false).1.timers
            = holdState.timers
          ∧ (handleSnoozeInteraction holdState 1000 1 "5m" "bob" 60 pdW false).2
            = .error .storeFailure) := by
  have h := store_failure_creates_no_registration holdState 5 9 parseW "0 * * * * *"
    "chan" "alice" "tea" "5m" "bob" 1 60 pdW
  have h3 := h.2.2 rowOneShotA (by decide) (by decide)
  exact ⟨h.1 (by decide), h.2.1 (by decide), h3.1, h3.2.2.2.2.2⟩
